import Mathlib

/-!
Verification of the persistent OAuth state store
(`auth/oauth_state_store.py`, class `PersistentOAuthStateStore`).

The store keeps a table of pending OAuth authorizations keyed by the opaque
state token, persisted as a JSON file.  We embed the store shallowly:

* UTC timestamps (`datetime` in the source) are natural numbers (seconds);
  `datetime.now(timezone.utc)` becomes an explicit `now` argument.
* The in-memory table (a Python dict) is an insertion-ordered association
  list `Table`; `dictGet`, `dictInsert` and `dictErase` model Python dict
  lookup, assignment and deletion.
* The backing file is threaded through each operation explicitly: an
  operation receives the table currently persisted on disk (the store
  reloads the file at the start of every public operation) and returns the
  caller-visible result together with the file contents after the
  operation.  A write failure (`IOError`, caught and logged by
  `_save_states`) is modelled by the `writeOk` flag: when it is `false`
  the file keeps its previous contents and no exception reaches the caller.
* The distinct `ValueError`s raised by the store are the constructors of
  `StoreError`, following the spec's error taxonomy.

A second layer (`PyVal`, `_load_states`, `convertAll`, ...) models the raw
deserialization path of `_load_states` on arbitrary file contents,
including the Python dynamic-typing failure modes (`TypeError`,
`AttributeError`, `ValueError` from `datetime.fromisoformat`), and the
serialization performed by `_save_states`.
-/

/-- A pending authorization record as built by `store_oauth_state`:
`{"session_id": session_id, "expires_at": expiry, "created_at": now}`.
`session_id` is Python `None` or a string; the timestamps are UTC datetimes
modelled as naturals. -/
structure StateRecord where
  session_id : Option String
  expires_at : Nat
  created_at : Nat
deriving DecidableEq

/-- The state table: a Python dict from state token to record, modelled as
an insertion-ordered association list. -/
abbrev Table := List (String × StateRecord)

/-- Python dict lookup `states.get(state)`: the binding of the key, if any. -/
def dictGet (t : Table) (k : String) : Option StateRecord :=
  (t.find? (fun kv => kv.1 == k)).map (fun kv => kv.2)

/-- Python dict assignment `states[state] = data`: replace the existing
binding in place, else append a new one. -/
def dictInsert (t : Table) (k : String) (v : StateRecord) : Table :=
  if t.any (fun kv => kv.1 == k) then
    t.map (fun kv => if kv.1 == k then (k, v) else kv)
  else t ++ [(k, v)]

/-- Python `del states[state]`. -/
def dictErase (t : Table) (k : String) : Table :=
  t.filter (fun kv => kv.1 != k)

/-- The Python dict invariant: keys are pairwise distinct. -/
def dictWf (t : Table) : Prop := (t.map Prod.fst).Nodup

instance (t : Table) : Decidable (dictWf t) :=
  inferInstanceAs (Decidable ((t.map Prod.fst).Nodup))

/-- The distinct `ValueError` conditions raised by the store, named after
the spec's error taxonomy:

* `invalidArgument` — "OAuth state must be provided" /
  "expires_in_seconds must be non-negative" / "Missing OAuth state
  parameter", raised before the lock is taken and before any file access;
* `invalidState` — "Invalid or expired OAuth state parameter";
* `sessionMismatch` — "OAuth state does not match the initiating session".
-/
inductive StoreError where
  | invalidArgument
  | invalidState
  | sessionMismatch
deriving DecidableEq

/-- Python truthiness of an optional string (`None` and `""` are falsy),
as used by `if bound_session and session_id and ...`. -/
def truthyStr : Option String → Bool
  | none => false
  | some s => !(s == "")

/-- `_cleanup_expired_states`: drop every record whose `expires_at` is at
or before `now`.  (In the source the guard is
`if expires_at and expires_at <= now`; a `datetime` object is always
truthy, so for records written by this store the guard reduces to the
comparison.) -/
def _cleanup_expired_states (now : Nat) (states : Table) : Table :=
  states.filter (fun kv => !(decide (kv.2.expires_at ≤ now)))

/-- Effect of `_save_states(states)` on the backing file, given the file's
previous contents.  `writeOk = false` models an `IOError` during the
write: `_save_states` catches it, logs, and returns normally, leaving the
file with its previous contents; no exception propagates. -/
def _save_states (writeOk : Bool) (diskBefore newStates : Table) : Table :=
  if writeOk then newStates else diskBefore

/-- `store_oauth_state(state, session_id, expires_in_seconds)`.

Returns the caller-visible outcome and the contents of the backing file
after the call.  Mirrors the source: validate arguments (raising before
any file access), load, sweep expired records, insert the new record with
`created_at = now` and `expires_at = now + expires_in_seconds`, save. -/
def store_oauth_state (writeOk : Bool) (disk : Table) (now : Nat) (state : String)
    (session_id : Option String) (expires_in_seconds : Int) :
    Except StoreError Unit × Table :=
  if state == "" then (.error .invalidArgument, disk)
  else if expires_in_seconds < 0 then (.error .invalidArgument, disk)
  else
    let states := _cleanup_expired_states now disk
    let expiry := now + expires_in_seconds.toNat
    let states1 := dictInsert states state ⟨session_id, expiry, now⟩
    (.ok (), _save_states writeOk disk states1)

/-- `validate_and_consume_oauth_state(state, session_id)`.

Returns the caller-visible outcome and the contents of the backing file
after the call.  Mirrors the source: reject an empty state, load, sweep,
look the state up; absent record raises `invalidState` (without saving);
a session-binding mismatch deletes the record, saves, and raises
`sessionMismatch`; otherwise the record is deleted, saved, and returned. -/
def validate_and_consume_oauth_state (writeOk : Bool) (disk : Table) (now : Nat)
    (state : String) (session_id : Option String) :
    Except StoreError StateRecord × Table :=
  if state == "" then (.error .invalidArgument, disk)
  else
    let states := _cleanup_expired_states now disk
    match dictGet states state with
    | none => (.error .invalidState, disk)
    | some info =>
      if truthyStr info.session_id && truthyStr session_id
          && !(info.session_id == session_id) then
        (.error .sessionMismatch, _save_states writeOk disk (dictErase states state))
      else
        (.ok info, _save_states writeOk disk (dictErase states state))

/-! ### Association-list lemmas for the dict operations -/

theorem dictGet_cons_pos (kv : String × StateRecord) (t : Table) (k : String)
    (h : (kv.1 == k) = true) : dictGet (kv :: t) k = some kv.2 := by
  unfold dictGet
  rw [List.find?_cons_of_pos (p := fun kv => kv.1 == k) t h]
  rfl

theorem dictGet_cons_neg (kv : String × StateRecord) (t : Table) (k : String)
    (h : (kv.1 == k) = false) : dictGet (kv :: t) k = dictGet t k := by
  unfold dictGet
  rw [List.find?_cons_of_neg (p := fun kv => kv.1 == k) t (by simp [h])]

theorem dictGet_map_replace_of_any (t : Table) (k : String) (v : StateRecord)
    (h : t.any (fun kv => kv.1 == k) = true) :
    dictGet (t.map (fun kv => if kv.1 == k then (k, v) else kv)) k = some v := by
  induction t with
  | nil => cases h
  | cons kv rest ih =>
    simp only [List.map_cons]
    cases hk : (kv.1 == k) with
    | true =>
      rw [if_pos rfl]
      exact dictGet_cons_pos (k, v) _ k (by simp)
    | false =>
      rw [if_neg Bool.false_ne_true, dictGet_cons_neg kv _ k hk]
      apply ih
      rw [List.any_cons, hk, Bool.false_or] at h
      exact h

theorem dictGet_append_single_of_none (t : Table) (k : String) (v : StateRecord)
    (h : t.any (fun kv => kv.1 == k) = false) :
    dictGet (t ++ [(k, v)]) k = some v := by
  induction t with
  | nil =>
    show dictGet [(k, v)] k = some v
    exact dictGet_cons_pos (k, v) [] k (by simp)
  | cons kv rest ih =>
    rw [List.any_cons, Bool.or_eq_false_iff] at h
    rw [List.cons_append, dictGet_cons_neg kv _ k h.1]
    exact ih h.2

theorem dictGet_insert_self (t : Table) (k : String) (v : StateRecord) :
    dictGet (dictInsert t k v) k = some v := by
  unfold dictInsert
  cases h : t.any (fun kv => kv.1 == k) with
  | true =>
    rw [if_pos rfl]
    exact dictGet_map_replace_of_any t k v h
  | false =>
    rw [if_neg Bool.false_ne_true]
    exact dictGet_append_single_of_none t k v h

theorem dictGet_insert_ne (t : Table) (k k' : String) (v : StateRecord)
    (h : k' ≠ k) :
    dictGet (dictInsert t k v) k' = dictGet t k' := by
  have hkk' : (k == k') = false := beq_eq_false_iff_ne.mpr (Ne.symm h)
  unfold dictInsert
  split
  next hany =>
    clear hany
    induction t with
    | nil => rfl
    | cons kv rest ih =>
      simp only [List.map_cons]
      cases hk : (kv.1 == k) with
      | true =>
        have hk1 : kv.1 = k := by simpa using hk
        rw [if_pos rfl, dictGet_cons_neg (k, v) _ k' hkk']
        rw [dictGet_cons_neg kv rest k' (by rw [hk1]; exact hkk')]
        exact ih
      | false =>
        rw [if_neg Bool.false_ne_true]
        cases hk' : (kv.1 == k') with
        | true => rw [dictGet_cons_pos kv _ k' hk', dictGet_cons_pos kv rest k' hk']
        | false =>
          rw [dictGet_cons_neg kv _ k' hk', dictGet_cons_neg kv rest k' hk']
          exact ih
  next hany =>
    clear hany
    induction t with
    | nil =>
      show dictGet [(k, v)] k' = dictGet [] k'
      rw [dictGet_cons_neg (k, v) [] k' hkk']
    | cons kv rest ih =>
      rw [List.cons_append]
      cases hk' : (kv.1 == k') with
      | true => rw [dictGet_cons_pos kv _ k' hk', dictGet_cons_pos kv rest k' hk']
      | false =>
        rw [dictGet_cons_neg kv _ k' hk', dictGet_cons_neg kv rest k' hk']
        exact ih

theorem dictGet_erase_self (t : Table) (k : String) :
    dictGet (dictErase t k) k = none := by
  induction t with
  | nil => rfl
  | cons kv rest ih =>
    show dictGet (List.filter _ (kv :: rest)) k = none
    rw [List.filter_cons]
    cases hk : (kv.1 == k) with
    | true =>
      rw [if_neg (by simp [bne, hk])]
      exact ih
    | false =>
      rw [if_pos (by simp [bne, hk]), dictGet_cons_neg kv _ k hk]
      exact ih

theorem dictGet_erase_ne (t : Table) (k k' : String) (h : k' ≠ k) :
    dictGet (dictErase t k) k' = dictGet t k' := by
  induction t with
  | nil => rfl
  | cons kv rest ih =>
    show dictGet (List.filter _ (kv :: rest)) k' = dictGet (kv :: rest) k'
    rw [List.filter_cons]
    cases hk : (kv.1 == k) with
    | true =>
      have hk1 : kv.1 = k := by simpa using hk
      rw [if_neg (by simp [bne, hk])]
      rw [dictGet_cons_neg kv rest k' (by rw [hk1]; exact beq_eq_false_iff_ne.mpr (Ne.symm h))]
      exact ih
    | false =>
      rw [if_pos (by simp [bne, hk])]
      cases hk' : (kv.1 == k') with
      | true => rw [dictGet_cons_pos kv _ k' hk', dictGet_cons_pos kv rest k' hk']
      | false =>
        rw [dictGet_cons_neg kv _ k' hk', dictGet_cons_neg kv rest k' hk']
        exact ih

theorem dictGet_filter_pos (t : Table) (p : String × StateRecord → Bool)
    (k : String) (r : StateRecord)
    (h1 : dictGet t k = some r) (h2 : p (k, r) = true) :
    dictGet (t.filter p) k = some r := by
  induction t with
  | nil => cases h1
  | cons kv rest ih =>
    rw [List.filter_cons]
    cases hk : (kv.1 == k) with
    | true =>
      have hk1 : kv.1 = k := by simpa using hk
      have hr : kv.2 = r := by
        rw [dictGet_cons_pos kv rest k hk] at h1
        exact Option.some.inj h1
      have hkv : kv = (k, r) := by rw [← hk1, ← hr]
      rw [hkv, if_pos h2]
      exact dictGet_cons_pos (k, r) _ k (by simp)
    | false =>
      rw [dictGet_cons_neg kv rest k hk] at h1
      cases hp : p kv with
      | true =>
        rw [if_pos rfl, dictGet_cons_neg kv _ k hk]
        exact ih h1
      | false =>
        rw [if_neg Bool.false_ne_true]
        exact ih h1

theorem dictGet_filter_none (t : Table) (p : String × StateRecord → Bool)
    (k : String) (h : dictGet t k = none) :
    dictGet (t.filter p) k = none := by
  unfold dictGet at h ⊢
  rw [Option.map_eq_none'] at h ⊢
  rw [List.find?_eq_none] at h ⊢
  intro x hx
  exact h x (List.mem_filter.mp hx).1

theorem dictGet_filter_pred (t : Table) (p : String × StateRecord → Bool)
    (k : String) (r : StateRecord)
    (h : dictGet (t.filter p) k = some r) :
    p (k, r) = true := by
  unfold dictGet at h
  rw [Option.map_eq_some'] at h
  obtain ⟨kv, hfind, hsnd⟩ := h
  have hmem := List.mem_of_find?_eq_some hfind
  have hpred := List.find?_some hfind
  have hk : kv.1 = k := by simpa using hpred
  have hp : p kv = true := (List.mem_filter.mp hmem).2
  have hkv : kv = (k, r) := by
    rw [← hk, ← hsnd]
  rw [← hkv]; exact hp

theorem dictGet_eq_none_of_not_mem_keys (t : Table) (k : String)
    (h : k ∉ t.map Prod.fst) :
    dictGet t k = none := by
  unfold dictGet
  rw [Option.map_eq_none', List.find?_eq_none]
  intro x hx hbeq
  exact h (List.mem_map.mpr ⟨x, hx, by simpa using hbeq⟩)

theorem dictGet_filter_of_wf (t : Table) (p : String × StateRecord → Bool)
    (k : String) (r : StateRecord)
    (hwf : dictWf t) (h : dictGet (t.filter p) k = some r) :
    dictGet t k = some r := by
  induction t with
  | nil => simp [dictGet] at h
  | cons kv rest ih =>
    have hwf' : dictWf rest := by
      simpa [dictWf] using (List.nodup_cons.mp (by simpa [dictWf] using hwf)).2
    have hnot : kv.1 ∉ rest.map Prod.fst :=
      (List.nodup_cons.mp (by simpa [dictWf] using hwf)).1
    by_cases hk : (kv.1 == k) = true
    · have hkk : kv.1 = k := by simpa using hk
      by_cases hp : p kv = true
      · have : kv.2 = r := by
          simpa [dictGet, hp, hk, List.find?_cons_of_pos] using h
        simp [dictGet, hk, List.find?_cons_of_pos, this]
      · simp only [Bool.not_eq_true] at hp
        have hnone : dictGet rest k = none := by
          apply dictGet_eq_none_of_not_mem_keys
          rw [← hkk]; exact hnot
        have : dictGet (rest.filter p) k = none := dictGet_filter_none rest p k hnone
        rw [List.filter_cons, hp] at h
        simp only [Bool.false_eq_true, if_false] at h
        rw [this] at h
        cases h
    · by_cases hp : p kv = true
      · have h' : dictGet (rest.filter p) k = some r := by
          simpa [dictGet, hp, hk, List.find?_cons_of_neg] using h
        simpa [dictGet, hk, List.find?_cons_of_neg] using ih hwf' h'
      · simp only [Bool.not_eq_true] at hp
        rw [List.filter_cons, hp] at h
        simp only [Bool.false_eq_true, if_false] at h
        simpa [dictGet, hk, List.find?_cons_of_neg] using ih hwf' h

theorem mem_dictInsert_self_key (t : Table) (k : String) (v r : StateRecord)
    (h : (k, r) ∈ dictInsert t k v) : r = v := by
  unfold dictInsert at h
  split at h
  next =>
    rw [List.mem_map] at h
    obtain ⟨kv, _, himg⟩ := h
    by_cases hk : (kv.1 == k) = true
    · rw [if_pos hk] at himg
      have := congrArg Prod.snd himg
      exact this.symm
    · rw [if_neg hk] at himg
      have h1 : kv.1 = k := congrArg Prod.fst himg
      exact absurd (by simp [h1]) hk
  next hany =>
    rw [List.mem_append, List.mem_singleton] at h
    rcases h with h | h
    · rw [Bool.not_eq_true, List.any_eq_false] at hany
      have := hany (k, r) h
      simp at this
    · have := congrArg Prod.snd h
      exact this

theorem dictGet_filter_none_of_key_val (t : Table) (p : String × StateRecord → Bool)
    (k : String) (hval : ∀ r, (k, r) ∈ t → p (k, r) = false) :
    dictGet (t.filter p) k = none := by
  unfold dictGet
  rw [Option.map_eq_none', List.find?_eq_none]
  intro x hx hbeq
  have hk : x.1 = k := by simpa using hbeq
  have hmem := List.mem_filter.mp hx
  have hxkv : x = (k, x.2) := by rw [← hk]
  have := hval x.2 (hxkv ▸ hmem.1)
  rw [← hxkv] at this
  rw [this] at hmem
  cases hmem.2

/-! ### Step lemmas for the two public operations (with successful writes) -/

theorem store_oauth_state_ok (d : Table) (now : Nat) (S : String)
    (sid : Option String) (ttl : Int) (hS : S ≠ "") (httl : 0 ≤ ttl) :
    store_oauth_state true d now S sid ttl
      = (.ok (), dictInsert (_cleanup_expired_states now d) S
          ⟨sid, now + ttl.toNat, now⟩) := by
  unfold store_oauth_state
  rw [if_neg (by simp [hS]), if_neg (by omega)]
  rfl

theorem validate_invalid_state (d : Table) (now : Nat) (S : String)
    (sid : Option String) (hS : S ≠ "")
    (h : dictGet (_cleanup_expired_states now d) S = none) :
    validate_and_consume_oauth_state true d now S sid
      = (.error .invalidState, d) := by
  unfold validate_and_consume_oauth_state
  rw [if_neg (by simp [hS])]
  simp only [h]

theorem validate_ok (d : Table) (now : Nat) (S : String) (sid : Option String)
    (info : StateRecord) (hS : S ≠ "")
    (h : dictGet (_cleanup_expired_states now d) S = some info)
    (hcond : (truthyStr info.session_id && truthyStr sid
        && !(info.session_id == sid)) = false) :
    validate_and_consume_oauth_state true d now S sid
      = (.ok info, dictErase (_cleanup_expired_states now d) S) := by
  unfold validate_and_consume_oauth_state
  rw [if_neg (by simp [hS])]
  simp only [h]
  rw [if_neg (by simp [hcond])]
  rfl

theorem validate_mismatch (d : Table) (now : Nat) (S : String) (sid : Option String)
    (info : StateRecord) (hS : S ≠ "")
    (h : dictGet (_cleanup_expired_states now d) S = some info)
    (hcond : (truthyStr info.session_id && truthyStr sid
        && !(info.session_id == sid)) = true) :
    validate_and_consume_oauth_state true d now S sid
      = (.error .sessionMismatch, dictErase (_cleanup_expired_states now d) S) := by
  unfold validate_and_consume_oauth_state
  rw [if_neg (by simp [hS])]
  simp only [h]
  rw [if_pos hcond]
  rfl

/-! ### Claim theorems (state-table layer) -/

/-- C1: consume-once.  After a successful `store_oauth_state(S, sid, ttl)`
with `S` non-empty and a `ttl` large enough that `S` has not expired at the
time `t1` of validation, exactly one `validate_and_consume_oauth_state(S, sid)`
succeeds and returns the stored record's contents; the success path deletes
the record and persists the table, so every later call with the same `S`
fails with `invalidState` (and leaves the file unchanged). -/
theorem consume_once (d : Table) (t0 t1 : Nat) (S : String) (sid : Option String)
    (ttl : Int) (hS : S ≠ "") (httl : 0 ≤ ttl) (hfresh : t1 < t0 + ttl.toNat) :
    ∃ d1 d2,
      store_oauth_state true d t0 S sid ttl = (.ok (), d1) ∧
      validate_and_consume_oauth_state true d1 t1 S sid
        = (.ok ⟨sid, t0 + ttl.toNat, t0⟩, d2) ∧
      dictGet d2 S = none ∧
      ∀ t2 sid2, validate_and_consume_oauth_state true d2 t2 S sid2
        = (.error .invalidState, d2) := by
  have h1 := store_oauth_state_ok d t0 S sid ttl hS httl
  have hget1 : dictGet (_cleanup_expired_states t1
      (dictInsert (_cleanup_expired_states t0 d) S ⟨sid, t0 + ttl.toNat, t0⟩)) S
      = some ⟨sid, t0 + ttl.toNat, t0⟩ := by
    apply dictGet_filter_pos
    · exact dictGet_insert_self _ S _
    · have hnle : ¬ ((⟨sid, t0 + ttl.toNat, t0⟩ : StateRecord).expires_at ≤ t1) :=
        Nat.not_le.mpr hfresh
      simp [hnle]
  have hcond : (truthyStr (⟨sid, t0 + ttl.toNat, t0⟩ : StateRecord).session_id
      && truthyStr sid
      && !((⟨sid, t0 + ttl.toNat, t0⟩ : StateRecord).session_id == sid)) = false := by
    simp
  have h2 := validate_ok _ t1 S sid _ hS hget1 hcond
  have h3 : dictGet (dictErase (_cleanup_expired_states t1
      (dictInsert (_cleanup_expired_states t0 d) S ⟨sid, t0 + ttl.toNat, t0⟩)) S) S
      = none := dictGet_erase_self _ S
  refine ⟨_, _, h1, h2, h3, ?_⟩
  intro t2 sid2
  apply validate_invalid_state _ t2 S sid2 hS
  exact dictGet_filter_none _ _ S h3

/-- C1 witness: a concrete run of `consume_once`. -/
theorem consume_once_witness :
    ∃ d1 d2,
      store_oauth_state true [] 0 "s" (some "A") 600 = (.ok (), d1) ∧
      validate_and_consume_oauth_state true d1 5 "s" (some "A")
        = (.ok ⟨some "A", 600, 0⟩, d2) ∧
      dictGet d2 "s" = none ∧
      ∀ t2 sid2, validate_and_consume_oauth_state true d2 t2 "s" sid2
        = (.error .invalidState, d2) :=
  consume_once [] 0 5 "s" (some "A") 600 (by decide) (by decide) (by decide)

/-- C2: session binding.  A state issued for non-empty session `A` and
redeemed with a different non-empty session `B` fails with
`sessionMismatch`; that failing call deletes the record and persists the
table, so a later call with the correct session `A` fails with
`invalidState`. -/
theorem session_mismatch_consumes (d : Table) (t0 t1 t2 : Nat) (S A B : String)
    (ttl : Int) (hS : S ≠ "") (hA : A ≠ "") (hB : B ≠ "") (hAB : B ≠ A)
    (httl : 0 ≤ ttl) (hfresh : t1 < t0 + ttl.toNat) :
    ∃ d1 d2,
      store_oauth_state true d t0 S (some A) ttl = (.ok (), d1) ∧
      validate_and_consume_oauth_state true d1 t1 S (some B)
        = (.error .sessionMismatch, d2) ∧
      d2 = dictErase (_cleanup_expired_states t1 d1) S ∧
      validate_and_consume_oauth_state true d2 t2 S (some A)
        = (.error .invalidState, d2) := by
  have h1 := store_oauth_state_ok d t0 S (some A) ttl hS httl
  have hget1 : dictGet (_cleanup_expired_states t1
      (dictInsert (_cleanup_expired_states t0 d) S ⟨some A, t0 + ttl.toNat, t0⟩)) S
      = some ⟨some A, t0 + ttl.toNat, t0⟩ := by
    apply dictGet_filter_pos
    · exact dictGet_insert_self _ S _
    · have hnle : ¬ ((⟨some A, t0 + ttl.toNat, t0⟩ : StateRecord).expires_at ≤ t1) :=
        Nat.not_le.mpr hfresh
      simp [hnle]
  have hA' : (A == "") = false := beq_eq_false_iff_ne.mpr hA
  have hB' : (B == "") = false := beq_eq_false_iff_ne.mpr hB
  have hAB' : ((some A : Option String) == some B) = false :=
    beq_eq_false_iff_ne.mpr (fun hc => (Ne.symm hAB) (Option.some.inj hc))
  have hcond : (truthyStr (⟨some A, t0 + ttl.toNat, t0⟩ : StateRecord).session_id
      && truthyStr (some B)
      && !((⟨some A, t0 + ttl.toNat, t0⟩ : StateRecord).session_id == some B)) = true := by
    simp [truthyStr, hA', hB', hAB']
  have h2 := validate_mismatch _ t1 S (some B) _ hS hget1 hcond
  have h3 : dictGet (dictErase (_cleanup_expired_states t1
      (dictInsert (_cleanup_expired_states t0 d) S ⟨some A, t0 + ttl.toNat, t0⟩)) S) S
      = none := dictGet_erase_self _ S
  refine ⟨_, _, h1, h2, rfl, ?_⟩
  apply validate_invalid_state _ t2 S (some A) hS
  exact dictGet_filter_none _ _ S h3

/-- C2 witness: a concrete run of `session_mismatch_consumes`. -/
theorem session_mismatch_consumes_witness :
    ∃ d1 d2,
      store_oauth_state true [] 0 "s" (some "session-A") 600 = (.ok (), d1) ∧
      validate_and_consume_oauth_state true d1 5 "s" (some "session-B")
        = (.error .sessionMismatch, d2) ∧
      d2 = dictErase (_cleanup_expired_states 5 d1) "s" ∧
      validate_and_consume_oauth_state true d2 9 "s" (some "session-A")
        = (.error .invalidState, d2) :=
  session_mismatch_consumes [] 0 5 9 "s" "session-A" "session-B" 600
    (by decide) (by decide) (by decide) (by decide) (by decide) (by decide)

/-- C6: zero-TTL expiry.  `store_oauth_state(S, sid, 0)` succeeds (a legal
no-op issuance), and every subsequent `validate_and_consume_oauth_state` at
a time at or after the issuance time fails with `invalidState`, because the
sweep removes every record whose `expires_at` is at or before the current
time. -/
theorem zero_ttl_issuance (d : Table) (t0 : Nat) (S : String) (sid : Option String)
    (hS : S ≠ "") :
    ∃ d1, store_oauth_state true d t0 S sid 0 = (.ok (), d1) ∧
      ∀ t1 sid2, t0 ≤ t1 →
        validate_and_consume_oauth_state true d1 t1 S sid2
          = (.error .invalidState, d1) := by
  have h1 := store_oauth_state_ok d t0 S sid 0 hS (by decide)
  refine ⟨_, h1, ?_⟩
  intro t1 sid2 ht
  apply validate_invalid_state _ t1 S sid2 hS
  apply dictGet_filter_none_of_key_val
  intro r hmem
  have hr : r = ⟨sid, t0 + (0 : Int).toNat, t0⟩ :=
    mem_dictInsert_self_key _ S _ r hmem
  rw [hr]
  simpa using ht

/-- C6 witness: a concrete run of `zero_ttl_issuance`. -/
theorem zero_ttl_issuance_witness :
    ∃ d1, store_oauth_state true [] 3 "s" (some "A") 0 = (.ok (), d1) ∧
      ∀ t1 sid2, 3 ≤ t1 →
        validate_and_consume_oauth_state true d1 t1 "s" sid2
          = (.error .invalidState, d1) :=
  zero_ttl_issuance [] 3 "s" (some "A") (by decide)

/-- C7: invalid-argument atomicity.  `store_oauth_state("", sid, 600)` and
`store_oauth_state(S, sid, -1)` both fail with `invalidArgument` and leave
the persisted table exactly as it was (the error is raised before any
load, sweep, or write), for every write outcome, table contents and
session id. -/
theorem invalid_arguments_leave_table_unchanged (w : Bool) (d : Table) (now : Nat)
    (S : String) (sid : Option String) :
    store_oauth_state w d now "" sid 600 = (.error .invalidArgument, d) ∧
    store_oauth_state w d now S sid (-1) = (.error .invalidArgument, d) := by
  constructor
  · unfold store_oauth_state
    rw [if_pos (show ("" == "") = true by decide)]
  · unfold store_oauth_state
    cases hS : (S == "") with
    | true => rw [if_pos rfl]
    | false => rw [if_neg Bool.false_ne_true, if_pos (by decide)]

/-- C8: swallowed write failures.  The caller-visible outcome of either
public operation is the same whether the persistence write succeeds or
fails with an `IOError`: the failure is logged and swallowed inside
`_save_states`, so issuance still returns normally and validation still
returns the record or the same typed error. -/
theorem write_failure_swallowed (w : Bool) (d : Table) (nowS nowV : Nat)
    (S SV : String) (sid sidV : Option String) (ttl : Int) :
    (store_oauth_state w d nowS S sid ttl).1
      = (store_oauth_state true d nowS S sid ttl).1 ∧
    (validate_and_consume_oauth_state w d nowV SV sidV).1
      = (validate_and_consume_oauth_state true d nowV SV sidV).1 := by
  constructor
  · unfold store_oauth_state
    split
    · rfl
    · split
      · rfl
      · rfl
  · by_cases hSV : (SV == "") = true
    · unfold validate_and_consume_oauth_state
      rw [if_pos hSV, if_pos hSV]
    · cases hget : dictGet (_cleanup_expired_states nowV d) SV with
      | none =>
        unfold validate_and_consume_oauth_state
        rw [if_neg hSV, if_neg hSV]
        simp only [hget]
      | some info =>
        unfold validate_and_consume_oauth_state
        rw [if_neg hSV, if_neg hSV]
        simp only [hget]
        split
        · rfl
        · rfl

/-- C10: freshness of validation.  Whenever
`validate_and_consume_oauth_state` returns a record, that record's
`expires_at` is strictly after the current time (the time at which the
call's expiry sweep ran): the sweep removes every record with
`expires_at ≤ now` before the lookup happens, so an already-expired record
is never returned. -/
theorem validate_success_returns_unexpired (w : Bool) (d : Table) (now : Nat)
    (S : String) (sid : Option String) (r : StateRecord) (d2 : Table)
    (h : validate_and_consume_oauth_state w d now S sid = (.ok r, d2)) :
    now < r.expires_at := by
  unfold validate_and_consume_oauth_state at h
  by_cases hS : (S == "") = true
  · rw [if_pos hS] at h
    simp at h
  · rw [if_neg hS] at h
    cases hget : dictGet (_cleanup_expired_states now d) S with
    | none =>
      simp only [hget] at h
      simp at h
    | some info =>
      simp only [hget] at h
      split at h
      · simp at h
      · have hr : info = r := by
          have := congrArg Prod.fst h
          simpa using this
        have hpred := dictGet_filter_pred d
          (fun kv => !(decide (kv.2.expires_at ≤ now))) S info hget
        rw [← hr]
        simpa using hpred

/-- C10 witness: a concrete successful validation, and the returned
record's expiry is strictly after the current time. -/
theorem validate_success_returns_unexpired_witness :
    validate_and_consume_oauth_state true [("s", ⟨none, 600, 0⟩)] 5 "s" none
      = (.ok ⟨none, 600, 0⟩, []) ∧ (5 : Nat) < (600 : Nat) :=
  ⟨rfl, validate_success_returns_unexpired true [("s", ⟨none, 600, 0⟩)] 5 "s" none
    ⟨none, 600, 0⟩ [] rfl⟩

/-- C9: frame property of issuance.  A successful
`store_oauth_state(S, sid, ttl)` on a well-formed table maps `S` to the new
record; every other key that was unexpired at the current time keeps its
record with all fields unchanged; every other key that was expired is
removed; and nothing else appears: any other key present afterwards was
present before with the same unexpired record. -/
theorem issue_frame (d : Table) (now : Nat) (S : String) (sid : Option String)
    (ttl : Int) (hwf : dictWf d) (hS : S ≠ "") (httl : 0 ≤ ttl) :
    ∃ d1, store_oauth_state true d now S sid ttl = (.ok (), d1) ∧
      dictGet d1 S = some ⟨sid, now + ttl.toNat, now⟩ ∧
      (∀ k, k ≠ S → ∀ r, dictGet d k = some r → now < r.expires_at →
        dictGet d1 k = some r) ∧
      (∀ k, k ≠ S → ∀ r, dictGet d k = some r → r.expires_at ≤ now →
        dictGet d1 k = none) ∧
      (∀ k, k ≠ S → ∀ r, dictGet d1 k = some r →
        dictGet d k = some r ∧ now < r.expires_at) := by
  refine ⟨_, store_oauth_state_ok d now S sid ttl hS httl, ?_, ?_, ?_, ?_⟩
  · exact dictGet_insert_self _ S _
  · intro k hk r hget hlive
    rw [dictGet_insert_ne _ S k _ hk]
    apply dictGet_filter_pos d _ k r hget
    have hnle : ¬ (r.expires_at ≤ now) := Nat.not_le.mpr hlive
    simp [hnle]
  · intro k hk r hget hexp
    rw [dictGet_insert_ne _ S k _ hk]
    cases hc : dictGet (_cleanup_expired_states now d) k with
    | none => rfl
    | some r2 =>
      have hd : dictGet d k = some r2 :=
        dictGet_filter_of_wf d (fun kv => !(decide (kv.2.expires_at ≤ now))) k r2 hwf hc
      have hpred := dictGet_filter_pred d
        (fun kv => !(decide (kv.2.expires_at ≤ now))) k r2 hc
      rw [hget] at hd
      have hrr : r = r2 := Option.some.inj hd
      subst hrr
      simp [hexp] at hpred
  · intro k hk r hget
    rw [dictGet_insert_ne _ S k _ hk] at hget
    have hd : dictGet d k = some r :=
      dictGet_filter_of_wf d (fun kv => !(decide (kv.2.expires_at ≤ now))) k r hwf hget
    have hpred := dictGet_filter_pred d
      (fun kv => !(decide (kv.2.expires_at ≤ now))) k r hget
    exact ⟨hd, by simpa using hpred⟩

/-- C9 witness: a concrete run of `issue_frame`. -/
theorem issue_frame_witness :
    ∃ d1, store_oauth_state true
        [("live", ⟨some "L", 100, 0⟩), ("dead", ⟨none, 1, 0⟩)] 1 "s" (some "A") 600
        = (.ok (), d1) ∧
      dictGet d1 "s" = some ⟨some "A", 1 + (600 : Int).toNat, 1⟩ ∧
      (∀ k, k ≠ "s" → ∀ r,
        dictGet [("live", ⟨some "L", 100, 0⟩), ("dead", ⟨none, 1, 0⟩)] k = some r →
        1 < r.expires_at → dictGet d1 k = some r) ∧
      (∀ k, k ≠ "s" → ∀ r,
        dictGet [("live", ⟨some "L", 100, 0⟩), ("dead", ⟨none, 1, 0⟩)] k = some r →
        r.expires_at ≤ 1 → dictGet d1 k = none) ∧
      (∀ k, k ≠ "s" → ∀ r, dictGet d1 k = some r →
        dictGet [("live", ⟨some "L", 100, 0⟩), ("dead", ⟨none, 1, 0⟩)] k = some r ∧
          1 < r.expires_at) :=
  issue_frame [("live", ⟨some "L", 100, 0⟩), ("dead", ⟨none, 1, 0⟩)] 1 "s" (some "A")
    600 (by decide) (by decide) (by decide)

/-- C3 counterexample: the claim says that when `validate_and_consume`
sweeps expired entries and then fails with `invalidState`, the sweep's
removals are persisted before the call returns.  On the table holding only
the expired record `("old", expires_at = 5)` at time `10`, the sweep
removes `"old"` in memory, yet the call returns with the persisted table
unchanged — the expired record is still on disk. -/
theorem sweep_not_persisted_on_invalid_state :
    validate_and_consume_oauth_state true [("old", ⟨none, 5, 0⟩)] 10 "unknown" none
      = (.error .invalidState, [("old", ⟨none, 5, 0⟩)]) ∧
    _cleanup_expired_states 10 [("old", ⟨none, 5, 0⟩)] = [] ∧
    dictGet [("old", ⟨none, 5, 0⟩)] "old" = some ⟨none, 5, 0⟩ :=
  ⟨rfl, rfl, rfl⟩

/-- C3 amended: every mutation of the table is persisted before the
operation returns on the issuance path and on both consuming validation
paths (success and session mismatch); but when `validate_and_consume`
fails with `invalidState` nothing is persisted — the expiry sweep's
removals performed during that failing call are discarded and the
persisted table is returned unchanged. -/
theorem persist_after_mutation (d : Table) (now : Nat) (S : String)
    (sid : Option String) (ttl : Int) (hS : S ≠ "") (httl : 0 ≤ ttl) :
    (store_oauth_state true d now S sid ttl).2
      = dictInsert (_cleanup_expired_states now d) S ⟨sid, now + ttl.toNat, now⟩ ∧
    (∀ info, dictGet (_cleanup_expired_states now d) S = some info →
      (validate_and_consume_oauth_state true d now S sid).2
        = dictErase (_cleanup_expired_states now d) S) ∧
    (dictGet (_cleanup_expired_states now d) S = none →
      validate_and_consume_oauth_state true d now S sid
        = (.error .invalidState, d)) := by
  refine ⟨?_, ?_, ?_⟩
  · rw [store_oauth_state_ok d now S sid ttl hS httl]
  · intro info hget
    cases hcond : (truthyStr info.session_id && truthyStr sid
        && !(info.session_id == sid)) with
    | true => rw [validate_mismatch d now S sid info hS hget hcond]
    | false => rw [validate_ok d now S sid info hS hget hcond]
  · intro hnone
    exact validate_invalid_state d now S sid hS hnone

/-- C3 amended witness: a concrete run of `persist_after_mutation`. -/
theorem persist_after_mutation_witness :
    (store_oauth_state true [("old", ⟨none, 5, 0⟩)] 10 "s" (some "A") 600).2
      = dictInsert (_cleanup_expired_states 10 [("old", ⟨none, 5, 0⟩)]) "s"
          ⟨some "A", 10 + (600 : Int).toNat, 10⟩ ∧
    (∀ info,
      dictGet (_cleanup_expired_states 10 [("old", ⟨none, 5, 0⟩)]) "s" = some info →
      (validate_and_consume_oauth_state true [("old", ⟨none, 5, 0⟩)] 10 "s" (some "A")).2
        = dictErase (_cleanup_expired_states 10 [("old", ⟨none, 5, 0⟩)]) "s") ∧
    (dictGet (_cleanup_expired_states 10 [("old", ⟨none, 5, 0⟩)]) "s" = none →
      validate_and_consume_oauth_state true [("old", ⟨none, 5, 0⟩)] 10 "s" (some "A")
        = (.error .invalidState, [("old", ⟨none, 5, 0⟩)])) :=
  persist_after_mutation [("old", ⟨none, 5, 0⟩)] 10 "s" (some "A") 600
    (by decide) (by decide)

/-! ### Raw deserialization layer: Python values, the backing file, and
`_load_states` on arbitrary file contents -/

/-- A Python value as produced by `json.load` (null, bool, number, string,
list, dict), plus the `datetime` objects (`date`) that
`datetime.fromisoformat` substitutes into the loaded dicts.  JSON numbers
are modelled as integers; no claim involves fractional values. -/
inductive PyVal where
  | null
  | bool (b : Bool)
  | num (n : Int)
  | str (s : String)
  | arr (elems : List PyVal)
  | obj (fields : List (String × PyVal))
  | date (t : Nat)

/-- The Python exceptions that can arise inside `_load_states`.  Its
handler catches only `IOError` and `json.JSONDecodeError`; the four listed
here escape to the caller. -/
inductive PyError where
  | typeError
  | valueError
  | attributeError
  | keyError
deriving DecidableEq

/-- Contents of the backing file as seen by `_load_states`. -/
inductive FileContent where
  | absent
  | unreadable
  | notJson
  | jsonDoc (v : PyVal)

/-- Python truthiness of a loaded value. -/
def pyTruthy : PyVal → Bool
  | .null => false
  | .bool b => b
  | .num n => n != 0
  | .str s => s != ""
  | .arr l => !l.isEmpty
  | .obj l => !l.isEmpty
  | .date _ => true

/-- Does the character list `needle` occur contiguously inside `hay`?
(Python substring containment for `needle in hay` on strings.) -/
def hasInfix (needle hay : List Char) : Bool :=
  (List.range (hay.length + 1)).any (fun i => needle.isPrefixOf (hay.drop i))

/-- Python `key in container` for a string `key`: key membership for a
dict, element membership for a list, substring containment for a string;
any other value raises `TypeError` (argument not iterable). -/
def pyContains (container : PyVal) (key : String) : Except PyError Bool :=
  match container with
  | .obj kvs => .ok (kvs.any (fun kv => kv.1 == key))
  | .arr elems => .ok (elems.any (fun e => match e with
      | .str s => s == key
      | _ => false))
  | .str s => .ok (hasInfix key.toList s.toList)
  | _ => .error .typeError

/-- Python `container[key]` for a string `key`: dict lookup (`KeyError`
when the key is absent); every other container raises `TypeError` for a
string index. -/
def pyGetItem (container : PyVal) (key : String) : Except PyError PyVal :=
  match container with
  | .obj kvs =>
    match kvs.find? (fun kv => kv.1 == key) with
    | some kv => .ok kv.2
    | none => .error .keyError
  | _ => .error .typeError

/-- Python `container[key] = v` for a string `key`: dict assignment
(replace in place, else append); every other container raises
`TypeError`. -/
def pySetItem (container : PyVal) (key : String) (v : PyVal) :
    Except PyError PyVal :=
  match container with
  | .obj kvs =>
    if kvs.any (fun kv => kv.1 == key) then
      .ok (.obj (kvs.map (fun kv => if kv.1 == key then (key, v) else kv)))
    else .ok (.obj (kvs ++ [(key, v)]))
  | _ => .error .typeError

/-- The decimal digit characters. -/
def digitChar : Nat → Char
  | 0 => '0'
  | 1 => '1'
  | 2 => '2'
  | 3 => '3'
  | 4 => '4'
  | 5 => '5'
  | 6 => '6'
  | 7 => '7'
  | 8 => '8'
  | _ => '9'

/-- The digit value of a decimal digit character, `none` otherwise. -/
def charDigit? (c : Char) : Option Nat :=
  if 48 ≤ c.toNat && c.toNat ≤ 57 then some (c.toNat - 48) else none

/-- Little-endian decimal digits of the second argument (empty for `0`);
the first argument is recursion fuel, always instantiated with the number
itself. -/
def natDigitsRevAux : Nat → Nat → List Nat
  | 0, _ => []
  | _ + 1, 0 => []
  | fuel + 1, n + 1 => ((n + 1) % 10) :: natDigitsRevAux fuel ((n + 1) / 10)

/-- Little-endian decimal digits of `n` (empty for `0`). -/
def natDigitsRev (n : Nat) : List Nat := natDigitsRevAux n n

/-- Value of a little-endian digit list. -/
def ofDigitsRev : List Nat → Nat
  | [] => 0
  | d :: ds => d + 10 * ofDigitsRev ds

/-- `datetime.isoformat()`: the timestamp rendered as text.  Timestamps
are modelled as naturals, so the textual form is the plain decimal
representation. -/
def isoformat (t : Nat) : String :=
  if t = 0 then "0" else String.mk (((natDigitsRev t).map digitChar).reverse)

/-- Parse a character list as decimal digits, all-or-nothing. -/
def parseDigits : List Char → Option (List Nat)
  | [] => some []
  | c :: cs =>
    match charDigit? c, parseDigits cs with
    | some d, some ds => some (d :: ds)
    | _, _ => none

/-- `datetime.fromisoformat(s)`: parse the textual timestamp form;
`none` models the `ValueError` Python raises on a string that is not a
well-formed timestamp. -/
def fromisoformat (s : String) : Option Nat :=
  match parseDigits s.toList with
  | none => none
  | some ds => if ds.isEmpty then none else some (ofDigitsRev ds.reverse)

/-- One arm of the conversion loop in `_load_states`:
`if key in state_data and state_data[key]:` then
`state_data[key] = datetime.fromisoformat(state_data[key])`, with Python's
dynamic failure modes: `in` on a non-container raises `TypeError`;
`fromisoformat` raises `TypeError` on a non-string and `ValueError` on a
malformed string.  None of these are caught by `_load_states`. -/
def convertField (key : String) (sd : PyVal) : Except PyError PyVal :=
  match pyContains sd key with
  | .error e => .error e
  | .ok false => .ok sd
  | .ok true =>
    match pyGetItem sd key with
    | .error e => .error e
    | .ok v =>
      if pyTruthy v then
        match v with
        | .str s =>
          match fromisoformat s with
          | some t => pySetItem sd key (.date t)
          | none => .error .valueError
        | _ => .error .typeError
      else .ok sd

/-- The conversion loop of `_load_states` over the values of the decoded
top-level dict: for each value, convert `"expires_at"` and then
`"created_at"`; the first exception propagates. -/
def convertAll : List (String × PyVal) → Except PyError (List (String × PyVal))
  | [] => .ok []
  | (k, sd) :: rest =>
    match convertField "expires_at" sd with
    | .error e => .error e
    | .ok sd1 =>
      match convertField "created_at" sd1 with
      | .error e => .error e
      | .ok sd2 =>
        match convertAll rest with
        | .error e => .error e
        | .ok rest1 => .ok ((k, sd2) :: rest1)

/-- `_load_states` on arbitrary backing-file contents.  A missing file
yields the empty table; `IOError` and `json.JSONDecodeError` are caught,
logged, and also yield the empty table; any other exception — the
`AttributeError` from calling `.values()` on a non-dict document, or a
`TypeError`/`ValueError` escaping the conversion loop — propagates to the
caller. -/
def _load_states : FileContent → Except PyError (List (String × PyVal))
  | .absent => .ok []
  | .unreadable => .ok []
  | .notJson => .ok []
  | .jsonDoc (.obj kvs) => convertAll kvs
  | .jsonDoc _ => .error .attributeError

/-- The JSON value `_save_states` writes for the optional session id. -/
def sessionJson : Option String → PyVal
  | none => .null
  | some s => .str s

/-- The JSON object `_save_states` writes for one record: a copy of the
in-memory dict with the two datetime fields replaced by their
`isoformat()` strings. -/
def serializeRecord (r : StateRecord) : PyVal :=
  .obj [("session_id", sessionJson r.session_id),
        ("expires_at", .str (isoformat r.expires_at)),
        ("created_at", .str (isoformat r.created_at))]

/-- The backing file `_save_states` writes for a state table: the JSON
document mapping each state token to its serialized record. -/
def _save_states_file (states : Table) : FileContent :=
  .jsonDoc (.obj (states.map (fun kv => (kv.1, serializeRecord kv.2))))

/-- The in-memory dict of one record after `_load_states` has converted
the two timestamp strings back to datetime objects. -/
def pyRecord (r : StateRecord) : PyVal :=
  .obj [("session_id", sessionJson r.session_id),
        ("expires_at", .date r.expires_at),
        ("created_at", .date r.created_at)]

/-! ### Round-trip lemmas for the timestamp text form -/

theorem toList_mk (l : List Char) : (String.mk l).toList = l := rfl

theorem charDigit_digitChar : ∀ d, d < 10 → charDigit? (digitChar d) = some d := by
  decide

theorem natDigitsRevAux_lt_ten (fuel : Nat) :
    ∀ n, ∀ d ∈ natDigitsRevAux fuel n, d < 10 := by
  induction fuel with
  | zero =>
    intro n d hd
    simp [natDigitsRevAux] at hd
  | succ fuel ih =>
    intro n d hd
    cases n with
    | zero => simp [natDigitsRevAux] at hd
    | succ m =>
      rw [natDigitsRevAux] at hd
      rcases List.mem_cons.mp hd with h | h
      · rw [h]
        exact Nat.mod_lt _ (by decide)
      · exact ih _ d h

theorem ofDigitsRev_natDigitsRevAux (fuel : Nat) :
    ∀ n, n ≤ fuel → ofDigitsRev (natDigitsRevAux fuel n) = n := by
  induction fuel with
  | zero =>
    intro n hn
    have h0 : n = 0 := Nat.le_zero.mp hn
    rw [h0]
    rfl
  | succ fuel ih =>
    intro n hn
    cases n with
    | zero => rfl
    | succ m =>
      have hdiv : (m + 1) / 10 ≤ fuel := by
        have h1 : (m + 1) / 10 < m + 1 := Nat.div_lt_self (Nat.succ_pos m) (by decide)
        omega
      rw [natDigitsRevAux, ofDigitsRev, ih _ hdiv]
      omega

theorem natDigitsRev_sound (n : Nat) : ofDigitsRev (natDigitsRev n) = n :=
  ofDigitsRev_natDigitsRevAux n n (Nat.le_refl n)

theorem parseDigits_map_digitChar (ds : List Nat) (h : ∀ d ∈ ds, d < 10) :
    parseDigits (ds.map digitChar) = some ds := by
  induction ds with
  | nil => rfl
  | cons d rest ih =>
    have hd : d < 10 := h d (List.mem_cons_self d rest)
    have hrest : ∀ x ∈ rest, x < 10 := fun x hx => h x (List.mem_cons_of_mem d hx)
    rw [List.map_cons, parseDigits, charDigit_digitChar d hd, ih hrest]

theorem fromisoformat_isoformat (t : Nat) : fromisoformat (isoformat t) = some t := by
  cases t with
  | zero => rfl
  | succ m =>
    have hbound : ∀ d ∈ (natDigitsRev (m + 1)).reverse, d < 10 :=
      fun d hd => natDigitsRevAux_lt_ten (m + 1) (m + 1) d (List.mem_reverse.mp hd)
    have hparse : parseDigits (((natDigitsRev (m + 1)).map digitChar).reverse)
        = some ((natDigitsRev (m + 1)).reverse) := by
      rw [← List.map_reverse]
      exact parseDigits_map_digitChar _ hbound
    have hne : ((natDigitsRev (m + 1)).reverse).isEmpty = false := by
      rw [natDigitsRev, natDigitsRevAux]
      simp
    unfold fromisoformat isoformat
    rw [if_neg (Nat.succ_ne_zero m), toList_mk]
    simp [hparse, hne, natDigitsRev_sound]

/-! ### The conversion loop recovers serialized records exactly -/

theorem convertField_str (key : String) (sd : PyVal) (s : String) (t : Nat)
    (hc : pyContains sd key = .ok true)
    (hg : pyGetItem sd key = .ok (.str s))
    (hp : fromisoformat s = some t) :
    convertField key sd = pySetItem sd key (.date t) := by
  have hs : pyTruthy (.str s) = true := by
    cases hss : s == "" with
    | true =>
      have hse : s = "" := by simpa using hss
      rw [hse] at hp
      rw [show fromisoformat "" = (none : Option Nat) from rfl] at hp
      exact Option.noConfusion hp
    | false =>
      show (s != "") = true
      simp [bne, hss]
  unfold convertField
  simp only [hc, hg, hs, if_true, hp]

theorem convertField_serialized_expires (r : StateRecord) :
    convertField "expires_at" (serializeRecord r)
      = .ok (.obj [("session_id", sessionJson r.session_id),
          ("expires_at", .date r.expires_at),
          ("created_at", .str (isoformat r.created_at))]) := by
  rw [convertField_str "expires_at" (serializeRecord r) (isoformat r.expires_at)
      r.expires_at rfl rfl (fromisoformat_isoformat r.expires_at)]
  rfl

theorem convertField_converted_created (r : StateRecord) :
    convertField "created_at" (.obj [("session_id", sessionJson r.session_id),
        ("expires_at", .date r.expires_at),
        ("created_at", .str (isoformat r.created_at))])
      = .ok (pyRecord r) := by
  rw [convertField_str "created_at"
      (.obj [("session_id", sessionJson r.session_id),
        ("expires_at", .date r.expires_at),
        ("created_at", .str (isoformat r.created_at))])
      (isoformat r.created_at) r.created_at rfl rfl
      (fromisoformat_isoformat r.created_at)]
  rfl

theorem convertAll_serialized (ts : Table) :
    convertAll (ts.map (fun kv => (kv.1, serializeRecord kv.2)))
      = .ok (ts.map (fun kv => (kv.1, pyRecord kv.2))) := by
  induction ts with
  | nil => rfl
  | cons kv rest ih =>
    simp only [List.map_cons]
    unfold convertAll
    simp only [convertField_serialized_expires, convertField_converted_created, ih]

theorem load_after_save (ts : Table) :
    _load_states (_save_states_file ts)
      = .ok (ts.map (fun kv => (kv.1, pyRecord kv.2))) := by
  unfold _save_states_file _load_states
  exact convertAll_serialized ts

/-- C4 counterexample: the claim says every malformed backing-file content
— including valid JSON whose shape or timestamp strings are not what the
store wrote — is treated as an empty table.  But `_load_states` catches
only `IOError` and `json.JSONDecodeError`: on a valid JSON dict whose
`expires_at` is not a well-formed timestamp string,
`datetime.fromisoformat` raises an uncaught `ValueError`, and on a valid
JSON document that is not a dict, `.values()` raises an uncaught
`AttributeError`; both propagate to the caller instead of yielding the
empty table. -/
theorem load_malformed_json_propagates :
    _load_states (.jsonDoc (.obj [("tok",
        .obj [("expires_at", .str "not-a-timestamp")])]))
      = .error .valueError ∧
    _load_states (.jsonDoc (.arr [])) = .error .attributeError :=
  ⟨rfl, rfl⟩

/-- C4 amended: when the backing file is absent, unreadable (`IOError`),
or its content is not parseable as JSON (`json.JSONDecodeError`),
`_load_states` treats the table as empty and the operation proceeds; but
valid JSON that is not shaped like the store's output (a non-dict
document, or a timestamp entry that is not a well-formed timestamp
string) raises an uncaught error instead. -/
theorem load_unreadable_treated_as_empty :
    _load_states .absent = .ok [] ∧
    _load_states .unreadable = .ok [] ∧
    _load_states .notJson = .ok [] :=
  ⟨rfl, rfl, rfl⟩

/-- C5: restart survival.  After `store_oauth_state(S, sid, 600)` succeeds
and the table is written out, a fresh store instance loading the same
backing file recovers every record with its fields exactly
(`_load_states` after `_save_states` is the identity up to the datetime
conversion), and `validate_and_consume_oauth_state(S, sid)` on the
persisted table succeeds and returns the original `session_id` and
`created_at`. -/
theorem restart_survival (d : Table) (t0 t1 : Nat) (S : String)
    (sid : Option String) (hS : S ≠ "") (hfresh : t1 < t0 + 600) :
    ∃ d1, store_oauth_state true d t0 S sid 600 = (.ok (), d1) ∧
      _load_states (_save_states_file d1)
        = .ok (d1.map (fun kv => (kv.1, pyRecord kv.2))) ∧
      ∃ d2, validate_and_consume_oauth_state true d1 t1 S sid
        = (.ok ⟨sid, t0 + 600, t0⟩, d2) := by
  have h1 := store_oauth_state_ok d t0 S sid 600 hS (by decide)
  have hget1 : dictGet (_cleanup_expired_states t1
      (dictInsert (_cleanup_expired_states t0 d) S
        ⟨sid, t0 + (600 : Int).toNat, t0⟩)) S
      = some ⟨sid, t0 + (600 : Int).toNat, t0⟩ := by
    apply dictGet_filter_pos
    · exact dictGet_insert_self _ S _
    · simpa using hfresh
  have hcond : (truthyStr (⟨sid, t0 + (600 : Int).toNat, t0⟩ :
      StateRecord).session_id && truthyStr sid
      && !((⟨sid, t0 + (600 : Int).toNat, t0⟩ :
        StateRecord).session_id == sid)) = false := by
    simp
  have h2 := validate_ok _ t1 S sid _ hS hget1 hcond
  exact ⟨_, h1, load_after_save _, ⟨_, h2⟩⟩

/-- C5 witness: a concrete run of `restart_survival`. -/
theorem restart_survival_witness :
    ∃ d1, store_oauth_state true [] 0 "s" (some "A") 600 = (.ok (), d1) ∧
      _load_states (_save_states_file d1)
        = .ok (d1.map (fun kv => (kv.1, pyRecord kv.2))) ∧
      ∃ d2, validate_and_consume_oauth_state true d1 5 "s" (some "A")
        = (.ok ⟨some "A", 600, 0⟩, d2) :=
  restart_survival [] 0 5 "s" (some "A") (by decide) (by decide)
